import Mathlib

/-!
Shallow embedding of the Pants build-engine diagnostics layer: the global
logger (src/rust/engine/logging/src/logger.rs) and the console UI renderer
(src/rust/engine/ui/src/console_ui.rs).  Rust mutable state is embedded as
explicit state passing; fallible operations return Except; machine details
that do not affect control flow (file handles, terminal drawing, wall-clock
timestamps) are modelled as parameters or opaque identifiers.
-/

/-- Log severity levels of the log crate, from least verbose (Error) to most
verbose (Trace). -/
inductive Level
  | Error
  | Warn
  | Info
  | Debug
  | Trace
deriving DecidableEq, Repr

/-- Numeric rank of a Level, mirroring the log crate's usize representation
(Error = 1 .. Trace = 5), used for threshold comparisons. -/
def Level.toNat : Level → Nat
  | .Error => 1
  | .Warn => 2
  | .Info => 3
  | .Debug => 4
  | .Trace => 5

/-- Display name of a Level as produced by the log crate's Display instance
(used in the formatted level tag). -/
def Level.name : Level → String
  | .Error => "ERROR"
  | .Warn => "WARN"
  | .Info => "INFO"
  | .Debug => "DEBUG"
  | .Trace => "TRACE"

/-- Log level filter of the log crate: Off rejects everything; otherwise the
rank mirrors Level (Off = 0, Error = 1 .. Trace = 5). -/
inductive LevelFilter
  | Off
  | Error
  | Warn
  | Info
  | Debug
  | Trace
deriving DecidableEq, Repr

/-- Numeric rank of a LevelFilter for threshold comparisons. -/
def LevelFilter.toNat : LevelFilter → Nat
  | .Off => 0
  | .Error => 1
  | .Warn => 2
  | .Info => 3
  | .Debug => 4
  | .Trace => 5

/-- Modelled from the spec: PythonLogLevel lives in the logging crate's lib.rs,
which is not part of the excerpt.  Per the spec, numeric severity values from
the external configuration source translate into the five recognized
severities (from least to most verbose: Error, Warn, Info, Debug, Trace). -/
inductive PythonLogLevel
  | Trace
  | Debug
  | Info
  | Warn
  | Error_
deriving DecidableEq, Repr

/-- Modelled from the spec: translation of an external numeric severity into a
PythonLogLevel; an unrecognized integer is rejected.  The concrete integers
follow the Python logging module's conventional values. -/
def tryIntoPythonLevel : Nat → Option PythonLogLevel
  | 5 => some .Trace
  | 10 => some .Debug
  | 20 => some .Info
  | 30 => some .Warn
  | 40 => some .Error_
  | _ => none

/-- Modelled from the spec: the LevelFilter corresponding to a recognized
PythonLogLevel (the From conversion in the logging crate's lib.rs). -/
def PythonLogLevel.toLevelFilter : PythonLogLevel → LevelFilter
  | .Trace => .Trace
  | .Debug => .Debug
  | .Info => .Info
  | .Warn => .Warn
  | .Error_ => .Error

/-- First-match lookup in an association list keyed by strings; models lookup
in the HashMap / IndexMap values of the source (which hold at most one entry
per key). -/
def lookupKey {β : Type} : List (String × β) → String → Option β
  | [], _ => none
  | p :: rest, k => if p.1 == k then some p.2 else lookupKey rest k

/-- MaybeWriteLogger from logger.rs: a sink owning a severity threshold, a
per-domain override table, and an optional inner writer.  The inner field is
some when the sink was built over a concrete output target (it records the
show-domain formatting configuration of the inner WriteLogger) and none for
the empty sink. -/
structure MaybeWriteLogger where
  level : LevelFilter
  log_domain_filters : List (String × LevelFilter)
  inner : Option Bool
deriving DecidableEq, Repr

/-- MaybeWriteLogger::empty - threshold Off, no filters, no output target. -/
def MaybeWriteLogger.empty : MaybeWriteLogger :=
  { level := LevelFilter.Off, log_domain_filters := [], inner := none }

/-- MaybeWriteLogger::new - builds a sink over a writable target at the given
threshold with the given per-domain override table.  The writable target
itself carries no observable state beyond its presence. -/
def MaybeWriteLogger.new (level : LevelFilter) (show_log_domain : Bool)
    (log_domain_filters : List (String × LevelFilter)) : MaybeWriteLogger :=
  { level := level, log_domain_filters := log_domain_filters,
    inner := some show_log_domain }

/-- Log::enabled for MaybeWriteLogger: a record passes if it clears the global
threshold or its domain's override (logger.rs lines 318-326). -/
def MaybeWriteLogger.enabled (l : MaybeWriteLogger) (level : Level)
    (target : String) : Bool :=
  let enabled_globally := decide (level.toNat ≤ l.level.toNat)
  let enabled_for_log_domain :=
    match lookupKey l.log_domain_filters target with
    | some lf => decide (level.toNat ≤ lf.toNat)
    | none => false
  enabled_globally || enabled_for_log_domain

/-- Log::log for MaybeWriteLogger: returns true iff the record is written to
the inner writer (the record passes enabled and an inner writer exists). -/
def MaybeWriteLogger.log (l : MaybeWriteLogger) (level : Level)
    (target : String) : Bool :=
  if !(l.enabled level target) then false
  else l.inner.isSome

/-- Destination from logger.rs: Pantsd is the background (daemon) destination
and Stderr the interactive one. -/
inductive Destination
  | Pantsd
  | Stderr
deriving DecidableEq, Repr

/-- The dual-scoped destination context of logger.rs: THREAD_DESTINATION is a
mutable thread-local cell and TASK_DESTINATION an optional task-local value
established only by scope_task_destination. -/
structure DestCtx where
  threadDestination : Destination
  taskDestination : Option Destination
deriving DecidableEq, Repr

/-- Initial context of a thread: THREAD_DESTINATION defaults to Stderr and no
task-local value is set. -/
def initialDestCtx : DestCtx :=
  { threadDestination := Destination.Stderr, taskDestination := none }

/-- set_thread_destination: overwrites the calling thread's scoped value; the
task-local value is untouched (logger.rs lines 382-386). -/
def set_thread_destination (d : Destination) (ctx : DestCtx) : DestCtx :=
  { ctx with threadDestination := d }

/-- scope_task_destination: runs f with the task-local value fixed to d
(TASK_DESTINATION.scope), returning f's result together with the context as it
stands after the scope ends - the scope itself leaves the surrounding context
unchanged (logger.rs lines 392-397). -/
def scope_task_destination {α : Type} (d : Destination) (f : DestCtx → α)
    (ctx : DestCtx) : α × DestCtx :=
  (f { ctx with taskDestination := some d }, ctx)

/-- get_destination: the task-local value if one is set for the current point
of execution, otherwise the thread-local value (logger.rs lines 405-411). -/
def get_destination (ctx : DestCtx) : Destination :=
  match ctx.taskDestination with
  | some d => d
  | none => ctx.threadDestination

/-- PantsLogger state (logger.rs lines 32-40) together with the log facade's
global maximum level (log::max_level, which the source manipulates through
set_max_level).  Interceptor callbacks are modelled as functions from the
formatted line to a success flag (true models Ok(())); registry keys are
naturals standing for Uuids. -/
structure LoggerState where
  pantsd_log : MaybeWriteLogger
  stderr_log : MaybeWriteLogger
  use_color : Bool
  show_rust_3rdparty_logs : Bool
  show_log_domain : Bool
  stderr_handlers : List (Nat × (String → Bool))
  log_level_filters : List (String × LevelFilter)
  maxLevel : LevelFilter

/-- A small concrete logger state used by the witness theorems below. -/
def sampleLoggerState : LoggerState :=
  { pantsd_log := MaybeWriteLogger.new LevelFilter.Info false [],
    stderr_log := MaybeWriteLogger.new LevelFilter.Info false [],
    use_color := false,
    show_rust_3rdparty_logs := false,
    show_log_domain := false,
    stderr_handlers := [],
    log_level_filters := [],
    maxLevel := LevelFilter.Info }

/-- PantsLogger::maybe_increase_global_verbosity (logger.rs lines 97-101):
raises the facade's global ceiling when the new level is more verbose, and
otherwise leaves it unchanged. -/
def maybe_increase_global_verbosity (cur new_level : LevelFilter) : LevelFilter :=
  if cur.toNat < new_level.toNat then new_level else cur

/-- PantsLogger::set_stderr_logger (logger.rs lines 103-116): translates the
numeric level, raises the global ceiling if needed, and rebuilds the stderr
sink with the current flags and domain-filter table. -/
def set_stderr_logger (s : LoggerState) (python_level : Nat) :
    Except String Unit × LoggerState :=
  match tryIntoPythonLevel python_level with
  | none => (Except.error "unrecognized log level", s)
  | some lvl =>
    (Except.ok (),
      { s with
        maxLevel := maybe_increase_global_verbosity s.maxLevel lvl.toLevelFilter,
        stderr_log := MaybeWriteLogger.new lvl.toLevelFilter s.show_log_domain
          s.log_level_filters })

/-- PantsLogger::set_pantsd_logger (logger.rs lines 122-154): translates the
numeric level; on success it first drops any open background sink (resetting
it to empty), then attempts to open the log file for append - the outcome of
that OS call is the openSucceeds parameter - and only on a successful open
builds the new sink and raises the global ceiling.  The returned raw file
descriptor is modelled as Unit. -/
def set_pantsd_logger (s : LoggerState) (python_level : Nat)
    (openSucceeds : Bool) : Except String Unit × LoggerState :=
  match tryIntoPythonLevel python_level with
  | none => (Except.error "unrecognized log level", s)
  | some lvl =>
    let s1 := { s with pantsd_log := MaybeWriteLogger.empty }
    if openSucceeds then
      (Except.ok (),
        { s1 with
          maxLevel := maybe_increase_global_verbosity s1.maxLevel lvl.toLevelFilter,
          pantsd_log := MaybeWriteLogger.new lvl.toLevelFilter s1.show_log_domain
            s1.log_level_filters })
    else (Except.error "Error opening pantsd logfile", s1)

/-- A log record as seen by PantsLogger::log: severity, domain/target name,
the module path when the record carries one, and the message text. -/
structure LogRecord where
  level : Level
  target : String
  modulePath : Option String
  message : String

/-- The allow-list filter at the top of PantsLogger::log (logger.rs lines
194-206): when show_rust_3rdparty_logs is false, a record with a module path
passes only if the path's first segment (split on the double colon) equals one
of the recognized engine package names; a record with no module path always
passes.  The package-name list itself (super::pants_packages, outside the
excerpt) is passed in as a parameter. -/
def shouldLog (show_rust_3rdparty_logs : Bool) (pants_packages : List String)
    (modulePath : Option String) : Bool :=
  if show_rust_3rdparty_logs then true
  else
    match modulePath with
    | some mp => pants_packages.any (fun p => (mp.splitOn "::").headD "" == p)
    | none => true

/-- ANSI color wrapping; models the colored crate (an external dependency)
applying a color code to the level tag. -/
def ansiColor (code : String) (s : String) : String :=
  "\x1b[" ++ code ++ "m" ++ s ++ "\x1b[0m"

/-- The level_marker match of PantsLogger::log (logger.rs lines 225-232):
without color the plain tag; with color Info stays plain, Error and Warn turn
red, Debug green and Trace magenta. -/
def levelMarker (use_color : Bool) (level : Level) : String :=
  let tag := "[" ++ level.name ++ "]"
  if !use_color then tag
  else
    match level with
    | .Info => tag
    | .Error => ansiColor "31" tag
    | .Warn => ansiColor "31" tag
    | .Debug => ansiColor "32" tag
    | .Trace => ansiColor "35" tag

/-- The log_string format of PantsLogger::log (logger.rs lines 234-244): time,
level marker, optionally the domain name, then the message.  The time string
(chrono wall-clock time) is a parameter. -/
def formatLogString (timeStr : String) (show_log_domain : Bool)
    (marker target message : String) : String :=
  if show_log_domain then
    timeStr ++ " " ++ marker ++ " " ++ target ++ " " ++ message
  else timeStr ++ " " ++ marker ++ " " ++ message

/-- Observable outcome of one PantsLogger::log call: which interceptors were
invoked and with what result, the formatted line offered to them (when the
record took the interactive path), how many times each raw sink's log method
was invoked, and how many lines each sink actually wrote (after its own
threshold check). -/
structure LogOutcome where
  handlerCalls : List (Nat × Bool)
  offeredLine : Option String
  stderrSinkCalls : Nat
  stderrWrites : Nat
  pantsdSinkCalls : Nat
  pantsdWrites : Nat

/-- PantsLogger::log (logger.rs lines 190-264): apply the non-engine
allow-list filter, resolve the destination (passed in, as resolved from the
destination context by get_destination), and route: a Pantsd record goes to
the background sink; a Stderr record is formatted and offered to every
registered interceptor, and the raw stderr sink is invoked exactly when the
registry is empty or some interceptor failed. -/
def PantsLogger.logRecord (pants_packages : List String) (s : LoggerState)
    (dest : Destination) (timeStr : String) (r : LogRecord) : LogOutcome :=
  if !(shouldLog s.show_rust_3rdparty_logs pants_packages r.modulePath) then
    { handlerCalls := [], offeredLine := none, stderrSinkCalls := 0,
      stderrWrites := 0, pantsdSinkCalls := 0, pantsdWrites := 0 }
  else
    match dest with
    | Destination.Stderr =>
      let marker := levelMarker s.use_color r.level
      let log_string := formatLogString timeStr s.show_log_domain marker
        r.target r.message
      let calls := s.stderr_handlers.map (fun p => (p.1, p.2 log_string))
      let any_handler_failed := calls.any (fun c => !c.2)
      if s.stderr_handlers.length == 0 || any_handler_failed then
        { handlerCalls := calls, offeredLine := some log_string,
          stderrSinkCalls := 1,
          stderrWrites := if s.stderr_log.log r.level r.target then 1 else 0,
          pantsdSinkCalls := 0, pantsdWrites := 0 }
      else
        { handlerCalls := calls, offeredLine := some log_string,
          stderrSinkCalls := 0, stderrWrites := 0, pantsdSinkCalls := 0,
          pantsdWrites := 0 }
    | Destination.Pantsd =>
      { handlerCalls := [], offeredLine := none, stderrSinkCalls := 0,
        stderrWrites := 0, pantsdSinkCalls := 1,
        pantsdWrites := if s.pantsd_log.log r.level r.target then 1 else 0 }

/-- PantsLogger::register_stderr_handler (logger.rs lines 169-174): inserts
the callback under a fresh unique id (Uuid::new_v4, modelled by a counter) and
returns the id. -/
def register_stderr_handler (s : LoggerState) (nextId : Nat)
    (cb : String → Bool) : Nat × LoggerState :=
  (nextId, { s with stderr_handlers := s.stderr_handlers ++ [(nextId, cb)] })

/-- PantsLogger::deregister_stderr_handler (logger.rs lines 176-179). -/
def deregister_stderr_handler (s : LoggerState) (id : Nat) : LoggerState :=
  { s with stderr_handlers := s.stderr_handlers.filter (fun p => !(p.1 == id)) }

/-- The ordered display mapping of the renderer: task label to optional
elapsed duration (milliseconds), in insertion order, with unique keys - the
IndexMap of console_ui.rs. -/
abbrev TaskMap := List (String × Option Nat)

/-- Keys of an association list, in order. -/
def keysOf {β : Type} (m : List (String × β)) : List String :=
  m.map Prod.fst

/-- IndexMap::contains_key. -/
def containsKey {β : Type} (m : List (String × β)) (k : String) : Bool :=
  m.any (fun p => p.1 == k)

/-- The IndexMap invariant: each key occurs at most once. -/
def NodupKeys {β : Type} (m : List (String × β)) : Prop :=
  (keysOf m).Nodup

instance decidableNodupKeys {β : Type} (m : List (String × β)) :
    Decidable (NodupKeys m) :=
  inferInstanceAs (Decidable (List.Nodup (keysOf m)))

/-- IndexMap insertion semantics (from the indexmap crate, an external
dependency): if an equivalent key is present, the entry keeps its position and
only the value is replaced; otherwise the new entry is appended at the end. -/
def indexMapInsert {β : Type} (m : List (String × β)) (k : String) (v : β) :
    List (String × β) :=
  if containsKey m k then m.map (fun p => if p.1 == k then (k, v) else p)
  else m ++ [(k, v)]

/-- IndexMap::extend: insert every entry of the argument in order
(console_ui.rs line 146, tasks_to_display.extend). -/
def indexMapExtend {β : Type} (m entries : List (String × β)) :
    List (String × β) :=
  entries.foldl (fun acc p => indexMapInsert acc p.1 p.2) m

/-- IndexMap::swap_remove (from the indexmap crate, an external dependency):
removes the entry for k - if present - by swapping it with the last entry and
popping; the position of what used to be the last entry is perturbed.  When
the entry for k is itself the last entry this is a plain pop. -/
def swapRemoveKey {β : Type} (m : List (String × β)) (k : String) :
    List (String × β) :=
  if containsKey m k then
    match m.getLast? with
    | none => []
    | some lastEntry =>
      if lastEntry.1 == k then m.dropLast
      else m.dropLast.map (fun p => if p.1 == k then lastEntry else p)
  else m

/-- The prune loop of ConsoleUI::render (console_ui.rs lines 149-153): iterate
over a snapshot (the clone) of the post-merge display mapping and swap-remove
from the live mapping every task absent from this tick's heavy hitters. -/
def pruneLoop (snapshot hh acc : TaskMap) : TaskMap :=
  snapshot.foldl
    (fun acc' p => if containsKey hh p.1 then acc' else swapRemoveKey acc' p.1)
    acc

/-- The display-mapping update of one render tick (console_ui.rs lines
144-153): merge this tick's heavy hitters into the ordered display mapping
(overwriting durations of tasks already present, appending new tasks), then
prune every task absent from the poll. -/
def renderMergePrune (m hh : TaskMap) : TaskMap :=
  let extended := indexMapExtend m hh
  pruneLoop extended hh extended

/-- Formalization of the order-preservation property claimed for the display
mapping: across one render tick, any two tasks present both before and after
the tick keep their relative order.  Position is the index of the task's key
in the ordered mapping. -/
def survivorsKeepOrder (m hh : TaskMap) : Prop :=
  ∀ k₁ k₂ : String,
    containsKey m k₁ = true → containsKey m k₂ = true →
    containsKey (renderMergePrune m hh) k₁ = true →
    containsKey (renderMergePrune m hh) k₂ = true →
    (keysOf m).indexOf k₁ < (keysOf m).indexOf k₂ →
    (keysOf (renderMergePrune m hh)).indexOf k₁ <
      (keysOf (renderMergePrune m hh)).indexOf k₂

/-- A swimlane widget: a ProgressBar identified by the order in which it was
created (modelling object identity) and carrying its current message. -/
structure SwimBar where
  id : Nat
  msg : String
deriving DecidableEq, Repr

/-- The swimlane update loop of ConsoleUI::render (console_ui.rs lines
158-166), stepping through the labels with their index n: when the source's
condition (n is at most the current widget count) holds, a brand-new widget is
created (ConsoleUI::create_swimlane followed by MultiProgress::add) and pushed;
otherwise the existing widget at index n receives the label via set_message -
which panics (modelled as none) when no widget exists at index n.  The nextId
counter supplies fresh widget identities. -/
def slotAssignLoop : List String → Nat → List SwimBar → Nat →
    Option (List SwimBar × Nat)
  | [], _, bars, nextId => some (bars, nextId)
  | label :: rest, n, bars, nextId =>
    if n ≤ bars.length then
      slotAssignLoop rest (n + 1) (bars ++ [SwimBar.mk nextId label]) (nextId + 1)
    else
      if h : n < bars.length then
        slotAssignLoop rest (n + 1)
          (bars.set n (SwimBar.mk (bars.get ⟨n, h⟩).id label)) nextId
      else none

/-- The cleanup loop of ConsoleUI::render (console_ui.rs lines 168-172),
iterating in order over the given index sequence (the Rust range from the
label count up to max_displayed_swimlanes): remove the widget at each index
(Vec::remove shifts later elements down and panics - modelled as none - when
the index is out of bounds). -/
def clearLoop : List SwimBar → List Nat → Option (List SwimBar)
  | bars, [] => some bars
  | bars, n :: rest =>
    if n < bars.length then clearLoop (bars.eraseIdx n) rest else none

/-- The widget portion of one render tick (console_ui.rs lines 155-172): run
the swimlane update loop over all labels starting at index 0, then the cleanup
loop over the indices from the label count up to the fixed cap of 8 displayed
swimlanes. -/
def renderBars (labels : List String) (bars : List SwimBar) (nextId : Nat) :
    Option (List SwimBar × Nat) :=
  match slotAssignLoop labels 0 bars nextId with
  | none => none
  | some (bars', nextId') =>
    match clearLoop bars' (List.range' labels.length (8 - labels.length)) with
    | none => none
    | some bars'' => some (bars'', nextId')

/-- The per-session state of the renderer (console_ui.rs Instance): the
ordered display mapping, the swimlane widgets, the interceptor-registry key
under which the session is registered, and an identifier for the running
background render task. -/
structure Instance where
  tasks_to_display : TaskMap
  bars : List SwimBar
  logger_handle : Nat
  multi_progress_task : Nat

/-- ConsoleUI state: an Instance is present exactly while a session is active
(the inst field embeds the source's instance field, whose name is a Lean
keyword). -/
structure ConsoleUI where
  inst : Option Instance

/-- The world a ConsoleUI call interacts with: the UI itself, the global
logger's interceptor registry (with its fresh-Uuid source, modelled as a
counter), and the count of background tasks handed to the executor (each
spawn_blocking call produces a new one). -/
structure UIWorld where
  ui : ConsoleUI
  handlers : List (Nat × (String → Bool))
  nextUuid : Nat
  spawned : Nat

/-- The session-starting operation of the renderer (console_ui.rs lines
181-210): errors out immediately when an Instance already exists; otherwise
spawns the background MultiProgress::join task, registers the interceptor with
the global logger, and installs a fresh Instance with an empty display mapping
and no widgets. -/
def ConsoleUI.startUI (w : UIWorld) (stderr_handler : String → Bool) :
    Except String Unit × UIWorld :=
  match w.ui.inst with
  | some _ =>
    (Except.error "A ConsoleUI cannot render multiple UIs concurrently.", w)
  | none =>
    (Except.ok (),
      { ui := { inst := some { tasks_to_display := [], bars := [],
                               logger_handle := w.nextUuid,
                               multi_progress_task := w.spawned } },
        handlers := w.handlers ++ [(w.nextUuid, stderr_handler)],
        nextUuid := w.nextUuid + 1,
        spawned := w.spawned + 1 })

/-!
Lemmas about the association-list embedding of IndexMap.
-/

theorem lookupKey_append {β : Type} (l₁ l₂ : List (String × β)) (k : String) :
    lookupKey (l₁ ++ l₂) k =
      match lookupKey l₁ k with
      | some v => some v
      | none => lookupKey l₂ k := by
  induction l₁ with
  | nil => simp [lookupKey]
  | cons p rest ih =>
    by_cases h : (p.1 == k) = true <;> simp [lookupKey, h, ih]

theorem lookupKey_eq_none_iff {β : Type} (m : List (String × β)) (k : String) :
    lookupKey m k = none ↔ containsKey m k = false := by
  induction m with
  | nil => simp [lookupKey, containsKey]
  | cons p rest ih =>
    by_cases h : (p.1 == k) = true <;> simp [lookupKey, containsKey, h] at * <;>
      simpa [containsKey] using ih

theorem containsKey_eq_isSome_lookupKey {β : Type} (m : List (String × β))
    (k : String) : containsKey m k = (lookupKey m k).isSome := by
  induction m with
  | nil => simp [lookupKey, containsKey]
  | cons p rest ih =>
    by_cases h : (p.1 == k) = true <;> simp [lookupKey, containsKey, h] at * <;>
      simpa [containsKey] using ih

theorem containsKey_iff_mem_keysOf {β : Type} (m : List (String × β))
    (k : String) : containsKey m k = true ↔ k ∈ keysOf m := by
  constructor
  · intro h
    rcases List.any_eq_true.mp h with ⟨p, hp, hpk⟩
    have : p.1 = k := by simpa using hpk
    exact this ▸ List.mem_map_of_mem Prod.fst hp
  · intro h
    rcases List.mem_map.mp h with ⟨p, hp, hpk⟩
    exact List.any_eq_true.mpr ⟨p, hp, by simp [hpk]⟩

theorem lookupKey_mem {β : Type} (m : List (String × β)) (k : String) (v : β)
    (h : lookupKey m k = some v) : (k, v) ∈ m := by
  induction m with
  | nil => simp [lookupKey] at h
  | cons p rest ih =>
    by_cases hk : (p.1 == k) = true
    · have h1 : p.1 = k := by simpa using hk
      have h2 : p.2 = v := by simpa [lookupKey, hk] using h
      have : p = (k, v) := by
        cases p; simp_all
      simp [this]
    · have := ih (by simpa [lookupKey, hk] using h)
      simp [this]


theorem keysOf_indexMapInsert {β : Type} (m : List (String × β)) (k : String)
    (v : β) :
    keysOf (indexMapInsert m k v) =
      if containsKey m k = true then keysOf m else keysOf m ++ [k] := by
  by_cases hc : containsKey m k = true
  · simp only [indexMapInsert, hc, if_true, keysOf, List.map_map]
    refine List.map_congr_left ?_
    intro p _
    by_cases hp : (p.1 == k) = true
    · have : p.1 = k := by simpa using hp
      simp [Function.comp, hp, this]
    · simp [Function.comp, hp]
  · simp [indexMapInsert, hc, keysOf]

theorem nodupKeys_indexMapInsert {β : Type} (m : List (String × β))
    (k : String) (v : β) (h : NodupKeys m) : NodupKeys (indexMapInsert m k v) := by
  unfold NodupKeys at *
  rw [keysOf_indexMapInsert]
  by_cases hc : containsKey m k = true
  · simpa [hc] using h
  · have hk : k ∉ keysOf m := fun hm =>
      hc ((containsKey_iff_mem_keysOf m k).mpr hm)
    simp [hc, List.nodup_append, h, hk]

theorem lookupKey_map_replace_of_containsKey {β : Type}
    (m : List (String × β)) (k : String) (v : β)
    (h : containsKey m k = true) :
    lookupKey (m.map (fun p => if p.1 == k then (k, v) else p)) k = some v := by
  induction m with
  | nil => simp [containsKey] at h
  | cons p rest ih =>
    by_cases hp : (p.1 == k) = true
    · simp [lookupKey, hp]
    · have hrest : containsKey rest k = true := by
        simpa [containsKey, hp] using h
      simpa [lookupKey, hp] using ih hrest

theorem lookupKey_indexMapInsert_self {β : Type} (m : List (String × β))
    (k : String) (v : β) : lookupKey (indexMapInsert m k v) k = some v := by
  by_cases hc : containsKey m k = true
  · simpa [indexMapInsert, hc] using
      lookupKey_map_replace_of_containsKey m k v hc
  · have hn : lookupKey m k = none :=
      (lookupKey_eq_none_iff m k).mpr (by simpa using hc)
    simp [indexMapInsert, hc, lookupKey_append, hn, lookupKey]

theorem lookupKey_map_replace_ne {β : Type} (m : List (String × β))
    (k k' : String) (v : β) (h : k' ≠ k) :
    lookupKey (m.map (fun p => if p.1 == k then (k, v) else p)) k' =
      lookupKey m k' := by
  induction m with
  | nil => simp [lookupKey]
  | cons p rest ih =>
    by_cases hp : (p.1 == k) = true
    · have hpk : p.1 = k := by simpa using hp
      have h1 : (k == k') = false := by
        simpa using fun e => h e.symm
      have h2 : (p.1 == k') = false := by
        simpa [hpk] using fun e => h e.symm
      simpa [lookupKey, hp, h1, h2] using ih
    · by_cases hq : (p.1 == k') = true
      · simp [lookupKey, hp, hq]
      · simpa [lookupKey, hp, hq] using ih

theorem lookupKey_indexMapInsert_ne {β : Type} (m : List (String × β))
    (k k' : String) (v : β) (h : k' ≠ k) :
    lookupKey (indexMapInsert m k v) k' = lookupKey m k' := by
  by_cases hc : containsKey m k = true
  · simpa [indexMapInsert, hc] using lookupKey_map_replace_ne m k k' v h
  · have h1 : (k == k') = false := by simpa using fun e => h e.symm
    simp only [indexMapInsert, hc, if_false, Bool.false_eq_true,
      lookupKey_append]
    cases hm : lookupKey m k' <;> simp [lookupKey, h1]

theorem containsKey_indexMapInsert {β : Type} (m : List (String × β))
    (k x : String) (v : β) :
    containsKey (indexMapInsert m k v) x = (containsKey m x || (k == x)) := by
  by_cases hx : x = k
  · subst hx
    rw [containsKey_eq_isSome_lookupKey, lookupKey_indexMapInsert_self]
    simp
  · rw [containsKey_eq_isSome_lookupKey, lookupKey_indexMapInsert_ne m k x v hx,
      ← containsKey_eq_isSome_lookupKey]
    have : (k == x) = false := by simpa using fun e => hx e.symm
    simp [this]

theorem nodupKeys_indexMapExtend {β : Type} (entries m : List (String × β))
    (h : NodupKeys m) : NodupKeys (indexMapExtend m entries) := by
  induction entries generalizing m with
  | nil => simpa [indexMapExtend] using h
  | cons q rest ih =>
    simpa [indexMapExtend] using
      ih (indexMapInsert m q.1 q.2) (nodupKeys_indexMapInsert m q.1 q.2 h)

theorem lookupKey_indexMapExtend {β : Type} (entries m : List (String × β))
    (x : String) (h : NodupKeys entries) :
    lookupKey (indexMapExtend m entries) x =
      match lookupKey entries x with
      | some v => some v
      | none => lookupKey m x := by
  induction entries generalizing m with
  | nil => simp [indexMapExtend, lookupKey]
  | cons q rest ih =>
    have hcons : q.1 ∉ keysOf rest ∧ (keysOf rest).Nodup := by
      refine List.nodup_cons.mp ?_
      simpa [NodupKeys, keysOf] using h
    have hq := hcons.1
    have hrest : NodupKeys rest := hcons.2
    have step : indexMapExtend m (q :: rest) =
        indexMapExtend (indexMapInsert m q.1 q.2) rest := by
      simp [indexMapExtend]
    rw [step, ih (indexMapInsert m q.1 q.2) hrest]
    by_cases hx : x = q.1
    · rw [hx]
      have hnone : lookupKey rest q.1 = none := by
        rw [lookupKey_eq_none_iff]
        cases hcc : containsKey rest q.1
        · rfl
        · exact absurd ((containsKey_iff_mem_keysOf rest q.1).mp hcc) hq
      simp [lookupKey, hnone, lookupKey_indexMapInsert_self]
    · have h1 : (q.1 == x) = false := by simpa using fun e => hx e.symm
      rw [lookupKey_indexMapInsert_ne m q.1 x q.2 hx]
      cases hr : lookupKey rest x <;> simp [lookupKey, h1, hr]

theorem containsKey_indexMapExtend {β : Type} (entries m : List (String × β))
    (x : String) :
    containsKey (indexMapExtend m entries) x =
      (containsKey m x || containsKey entries x) := by
  induction entries generalizing m with
  | nil => simp [indexMapExtend, containsKey]
  | cons q rest ih =>
    have step : indexMapExtend m (q :: rest) =
        indexMapExtend (indexMapInsert m q.1 q.2) rest := by
      simp [indexMapExtend]
    rw [step, ih (indexMapInsert m q.1 q.2), containsKey_indexMapInsert]
    have : containsKey (q :: rest) x = ((q.1 == x) || containsKey rest x) := by
      simp [containsKey, Bool.or_comm]
    rw [this]
    cases hb : containsKey m x <;> cases hc : (q.1 == x) <;>
      cases hd : containsKey rest x <;> simp

theorem keysOf_indexMapExtend {β : Type} (entries m : List (String × β))
    (h : NodupKeys entries) :
    keysOf (indexMapExtend m entries) =
      keysOf m ++ keysOf (entries.filter (fun p => !(containsKey m p.1))) := by
  induction entries generalizing m with
  | nil => simp [indexMapExtend, keysOf]
  | cons q rest ih =>
    have hcons : q.1 ∉ keysOf rest ∧ (keysOf rest).Nodup := by
      refine List.nodup_cons.mp ?_
      simpa [NodupKeys, keysOf] using h
    have hq := hcons.1
    have hrest : NodupKeys rest := hcons.2
    have step : indexMapExtend m (q :: rest) =
        indexMapExtend (indexMapInsert m q.1 q.2) rest := by
      simp [indexMapExtend]
    rw [step, ih (indexMapInsert m q.1 q.2) hrest]
    have hfilter : rest.filter
          (fun p => !(containsKey (indexMapInsert m q.1 q.2) p.1)) =
        rest.filter (fun p => !(containsKey m p.1)) := by
      refine List.filter_congr ?_
      intro p hp
      have hpq : (q.1 == p.1) = false := by
        refine (Bool.eq_false_iff).mpr ?_
        intro he
        exact hq (by
          have : q.1 = p.1 := by simpa using he
          exact this ▸ List.mem_map_of_mem Prod.fst hp)
      rw [containsKey_indexMapInsert]
      simp [hpq]
    rw [hfilter, keysOf_indexMapInsert]
    by_cases hc : containsKey m q.1 = true
    · simp [hc, List.filter_cons, keysOf]
    · have hc' : containsKey m q.1 = false := by simpa using hc
      simp [hc', List.filter_cons, keysOf, List.append_assoc]

theorem map_swap_id {β : Type} (L : List (String × β)) (k : String)
    (bl : String × β) (h : containsKey L k = false) :
    L.map (fun p => if p.1 == k then bl else p) = L := by
  have hall : ∀ p ∈ L, ¬ (p.1 == k) = true := List.any_eq_false.mp h
  induction L with
  | nil => rfl
  | cons p tl ih =>
    have hp : ¬ ((p.1 == k) = true) := hall p (by simp)
    have htlc : containsKey tl k = false :=
      List.any_eq_false.mpr (fun q hq => hall q (by simp [hq]))
    have htl : tl.map (fun q => if q.1 == k then bl else q) = tl :=
      ih htlc (fun q hq => hall q (by simp [hq]))
    simp only [List.map_cons, htl]
    rw [if_neg hp]

theorem lookupKey_map_swap_self {β : Type} (L : List (String × β))
    (k : String) (bl : String × β) (hbl : (bl.1 == k) = false) :
    lookupKey (L.map (fun p => if p.1 == k then bl else p)) k = none := by
  induction L with
  | nil => simp [lookupKey]
  | cons p tl ih =>
    by_cases hp : (p.1 == k) = true
    · simpa [lookupKey, hp, hbl] using ih
    · simpa [lookupKey, hp] using ih

theorem keysOf_append {β : Type} (l₁ l₂ : List (String × β)) :
    keysOf (l₁ ++ l₂) = keysOf l₁ ++ keysOf l₂ := by
  simp [keysOf]

theorem containsKey_append {β : Type} (l₁ l₂ : List (String × β)) (k : String) :
    containsKey (l₁ ++ l₂) k = (containsKey l₁ k || containsKey l₂ k) := by
  simp [containsKey]


theorem lookupKey_cons_append {β : Type} (tl : List (String × β))
    (bl : String × β) (hb : bl.1 ∉ keysOf tl) (k' : String) :
    lookupKey (bl :: tl) k' = lookupKey (tl ++ [bl]) k' := by
  rw [lookupKey_append]
  by_cases hk : (bl.1 == k') = true
  · have hbk : bl.1 = k' := by simpa using hk
    have hnone : lookupKey tl k' = none := by
      rw [lookupKey_eq_none_iff]
      cases hcc : containsKey tl k'
      · rfl
      · exact absurd ((containsKey_iff_mem_keysOf tl k').mp hcc)
          (hbk ▸ hb)
    simp [lookupKey, hk, hnone]
  · cases hcc : lookupKey tl k' <;> simp [lookupKey, hk, hcc]

theorem lookupKey_map_swap_ne {β : Type} (L : List (String × β))
    (bl : String × β) (k k' : String) (h : k' ≠ k)
    (hnd : NodupKeys (L ++ [bl])) (hc : containsKey L k = true) :
    lookupKey (L.map (fun p => if p.1 == k then bl else p)) k' =
      lookupKey (L ++ [bl]) k' := by
  induction L with
  | nil => simp [containsKey] at hc
  | cons p tl ih =>
    have hnd' : (p.1 :: (keysOf tl ++ [bl.1])).Nodup := by
      simpa [NodupKeys, keysOf] using hnd
    have hptl : p.1 ∉ keysOf tl ++ [bl.1] := (List.nodup_cons.mp hnd').1
    have hndtl : NodupKeys (tl ++ [bl]) := by
      have := (List.nodup_cons.mp hnd').2
      simpa [NodupKeys, keysOf] using this
    have hbl1tl : bl.1 ∉ keysOf tl := by
      have h2 : (keysOf tl ++ [bl.1]).Nodup := by
        simpa [NodupKeys, keysOf] using hndtl
      intro hm
      rcases List.nodup_append.mp h2 with ⟨_, _, hdisj⟩
      exact hdisj hm (by simp)
    by_cases hp : (p.1 == k) = true
    · have hpk : p.1 = k := by simpa using hp
      have hknotin : k ∉ keysOf tl ++ [bl.1] := hpk ▸ hptl
      have hktl : containsKey tl k = false := by
        cases hcc : containsKey tl k
        · rfl
        · exact absurd (List.mem_append_left _
            ((containsKey_iff_mem_keysOf tl k).mp hcc)) hknotin
      have hmapid : tl.map (fun q => if q.1 == k then bl else q) = tl :=
        map_swap_id tl k bl hktl
      have hpk' : (p.1 == k') = false := by
        refine Bool.eq_false_iff.mpr ?_
        intro he
        exact h (by
          have h1 : p.1 = k' := by simpa using he
          rw [← h1, hpk])
      calc lookupKey ((p :: tl).map (fun q => if q.1 == k then bl else q)) k'
          = lookupKey (bl :: tl) k' := by
            simp only [List.map_cons, hp, if_true, hmapid]
        _ = lookupKey (tl ++ [bl]) k' := lookupKey_cons_append tl bl hbl1tl k'
        _ = lookupKey ((p :: tl) ++ [bl]) k' := by
            simp [lookupKey, hpk']
    · have hctl : containsKey tl k = true := by
        simpa [containsKey, hp] using hc
      have hih := ih hndtl hctl
      by_cases hq : (p.1 == k') = true
      · simp [lookupKey, hp, hq]
      · simpa [lookupKey, hp, hq] using hih

theorem keysOf_map_swap {β : Type} (L : List (String × β)) (k : String)
    (bl : String × β) :
    keysOf (L.map (fun p => if p.1 == k then bl else p)) =
      (keysOf L).map (fun y => if y == k then bl.1 else y) := by
  induction L with
  | nil => simp [keysOf]
  | cons p tl ih =>
    have htl := ih
    simp only [keysOf, List.map_cons] at htl ⊢
    by_cases hp : (p.1 == k) = true
    · simp only [if_pos hp, htl]
    · simp only [if_neg hp, htl]

theorem nodupKeys_map_swap {β : Type} (L : List (String × β)) (k : String)
    (bl : String × β) (hnd : (keysOf L).Nodup) (hb : bl.1 ∉ keysOf L) :
    NodupKeys (L.map (fun p => if p.1 == k then bl else p)) := by
  unfold NodupKeys
  rw [keysOf_map_swap]
  refine List.Nodup.map_on ?_ hnd
  intro y1 hy1 y2 hy2 he
  by_cases h1 : (y1 == k) = true
  · by_cases h2 : (y2 == k) = true
    · have e1 : y1 = k := by simpa using h1
      have e2 : y2 = k := by simpa using h2
      rw [e1, e2]
    · exfalso
      apply hb
      have : bl.1 = y2 := by simpa [h1, h2] using he
      exact this ▸ hy2
  · by_cases h2 : (y2 == k) = true
    · exfalso
      apply hb
      have : y1 = bl.1 := by simpa [h1, h2] using he
      exact this ▸ hy1
    · simpa [h1, h2] using he

theorem swapRemoveKey_concat {β : Type} (L : List (String × β))
    (bl : String × β) (k : String) (hc : containsKey (L ++ [bl]) k = true) :
    swapRemoveKey (L ++ [bl]) k =
      if bl.1 == k then L
      else L.map (fun p => if p.1 == k then bl else p) := by
  have hlast : (L ++ [bl]).getLast? = some bl := List.getLast?_concat ..
  simp [swapRemoveKey, hc, hlast, List.dropLast_concat]

theorem lookupKey_swapRemoveKey_self {β : Type} (m : List (String × β))
    (k : String) (h : NodupKeys m) : lookupKey (swapRemoveKey m k) k = none := by
  cases hc : containsKey m k
  · rw [lookupKey_eq_none_iff]
    simpa [swapRemoveKey, hc] using hc
  · rcases List.eq_nil_or_concat m with rfl | ⟨L, bl, rfl⟩
    · simp [containsKey] at hc
    · rw [List.concat_eq_append] at *
      rw [swapRemoveKey_concat L bl k hc]
      have hkeys : (keysOf L ++ [bl.1]).Nodup := by
        simpa [NodupKeys, keysOf] using h
      have hbnotin : bl.1 ∉ keysOf L := by
        intro hm
        rcases List.nodup_append.mp hkeys with ⟨_, _, hdisj⟩
        exact hdisj hm (by simp)
      by_cases hbl : (bl.1 == k) = true
      · have hbk : bl.1 = k := by simpa using hbl
        rw [if_pos hbl, lookupKey_eq_none_iff]
        cases hcc : containsKey L k
        · rfl
        · exact absurd ((containsKey_iff_mem_keysOf L k).mp hcc)
            (hbk ▸ hbnotin)
      · rw [if_neg hbl]
        exact lookupKey_map_swap_self L k bl (by simpa using hbl)

theorem lookupKey_swapRemoveKey_ne {β : Type} (m : List (String × β))
    (k k' : String) (h : NodupKeys m) (hne : k' ≠ k) :
    lookupKey (swapRemoveKey m k) k' = lookupKey m k' := by
  cases hc : containsKey m k
  · simp [swapRemoveKey, hc]
  · rcases List.eq_nil_or_concat m with rfl | ⟨L, bl, rfl⟩
    · simp [containsKey] at hc
    · rw [List.concat_eq_append] at *
      rw [swapRemoveKey_concat L bl k hc]
      by_cases hbl : (bl.1 == k) = true
      · have hbk : bl.1 = k := by simpa using hbl
        have hblk' : (bl.1 == k') = false := by
          refine Bool.eq_false_iff.mpr ?_
          intro he
          exact hne (by
            have h1 : bl.1 = k' := by simpa using he
            rw [← h1, hbk])
        rw [if_pos hbl, lookupKey_append]
        cases hcc : lookupKey L k' <;> simp [lookupKey, hblk', hcc]
      · have hcl : containsKey L k = true := by
          have := hc
          rw [containsKey_append] at this
          simpa [containsKey, hbl] using this
        rw [if_neg hbl]
        exact lookupKey_map_swap_ne L bl k k' hne h hcl

theorem nodupKeys_swapRemoveKey {β : Type} (m : List (String × β))
    (k : String) (h : NodupKeys m) : NodupKeys (swapRemoveKey m k) := by
  cases hc : containsKey m k
  · simpa [swapRemoveKey, hc] using h
  · rcases List.eq_nil_or_concat m with rfl | ⟨L, bl, rfl⟩
    · simp [containsKey] at hc
    · rw [List.concat_eq_append] at *
      rw [swapRemoveKey_concat L bl k hc]
      have hkeys : (keysOf L ++ [bl.1]).Nodup := by
        simpa [NodupKeys, keysOf] using h
      rcases List.nodup_append.mp hkeys with ⟨hL, _, hdisj⟩
      have hbnotin : bl.1 ∉ keysOf L := fun hm => hdisj hm (by simp)
      by_cases hbl : (bl.1 == k) = true
      · rw [if_pos hbl]
        exact hL
      · rw [if_neg hbl]
        exact nodupKeys_map_swap L k bl hL hbnotin

theorem pruneLoop_cons (p : String × Option Nat) (rest hh acc : TaskMap) :
    pruneLoop (p :: rest) hh acc =
      pruneLoop rest hh
        (if containsKey hh p.1 then acc else swapRemoveKey acc p.1) := by
  simp [pruneLoop]

theorem lookupKey_pruneLoop (hh : TaskMap) (snapshot : TaskMap) :
    ∀ acc : TaskMap, NodupKeys acc → ∀ x : String,
      lookupKey (pruneLoop snapshot hh acc) x =
        if containsKey snapshot x && !(containsKey hh x) then none
        else lookupKey acc x := by
  induction snapshot with
  | nil =>
    intro acc _ x
    simp [pruneLoop, containsKey]
  | cons p rest ih =>
    intro acc hacc x
    rw [pruneLoop_cons]
    by_cases hp : containsKey hh p.1 = true
    · rw [if_pos hp, ih acc hacc x]
      by_cases hx : (p.1 == x) = true
      · have hpx : p.1 = x := by simpa using hx
        have hhx : containsKey hh x = true := hpx ▸ hp
        simp [hhx]
      · have hx' : (p.1 == x) = false := by simpa using hx
        have hcons2 : containsKey (p :: rest) x = containsKey rest x := by
          simp [containsKey, hx']
        rw [hcons2]
    · have hp' : containsKey hh p.1 = false := by simpa using hp
      rw [if_neg hp, ih (swapRemoveKey acc p.1)
        (nodupKeys_swapRemoveKey acc p.1 hacc) x]
      by_cases hx : (p.1 == x) = true
      · have hpx : p.1 = x := by simpa using hx
        have hhx : containsKey hh x = false := hpx ▸ hp'
        have hself : lookupKey (swapRemoveKey acc p.1) x = none := by
          rw [hpx]
          exact lookupKey_swapRemoveKey_self acc x hacc
        have hcons1 : containsKey (p :: rest) x = true := by
          simp [containsKey, hx]
        rw [hcons1]
        cases hr : containsKey rest x
        · simp [hhx, hself]
        · simp [hhx, hself]
      · have hx' : (p.1 == x) = false := by simpa using hx
        have hne : x ≠ p.1 := by
          intro he
          rw [he] at hx'
          simp at hx'
        have hlk : lookupKey (swapRemoveKey acc p.1) x = lookupKey acc x :=
          lookupKey_swapRemoveKey_ne acc p.1 x hacc hne
        have hcons2 : containsKey (p :: rest) x = containsKey rest x := by
          simp [containsKey, hx']
        rw [hcons2, hlk]

theorem lookupKey_renderMergePrune (m hh : TaskMap) (hm : NodupKeys m)
    (hhn : NodupKeys hh) (x : String) :
    lookupKey (renderMergePrune m hh) x = lookupKey hh x := by
  have hext : NodupKeys (indexMapExtend m hh) := nodupKeys_indexMapExtend hh m hm
  unfold renderMergePrune
  rw [lookupKey_pruneLoop hh (indexMapExtend m hh) (indexMapExtend m hh) hext x]
  by_cases hhx : containsKey hh x = true
  · have hsome : (lookupKey hh x).isSome = true := by
      rw [← containsKey_eq_isSome_lookupKey]
      exact hhx
    rcases Option.isSome_iff_exists.mp hsome with ⟨v, hv⟩
    rw [lookupKey_indexMapExtend hh m x hhn]
    simp [hhx, hv]
  · have hhx' : containsKey hh x = false := by simpa using hhx
    have hnone : lookupKey hh x = none := (lookupKey_eq_none_iff hh x).mpr hhx'
    cases hce : containsKey (indexMapExtend m hh) x
    · have : lookupKey (indexMapExtend m hh) x = none :=
        (lookupKey_eq_none_iff _ x).mpr hce
      simp [hhx', hnone, this]
    · simp [hhx', hnone]

theorem containsKey_renderMergePrune (m hh : TaskMap) (hm : NodupKeys m)
    (hhn : NodupKeys hh) (x : String) :
    containsKey (renderMergePrune m hh) x = containsKey hh x := by
  rw [containsKey_eq_isSome_lookupKey, containsKey_eq_isSome_lookupKey,
    lookupKey_renderMergePrune m hh hm hhn x]

theorem pruneLoop_id (hh : TaskMap) (snapshot : TaskMap)
    (hall : ∀ p ∈ snapshot, containsKey hh p.1 = true) :
    ∀ acc : TaskMap, pruneLoop snapshot hh acc = acc := by
  induction snapshot with
  | nil =>
    intro acc
    simp [pruneLoop]
  | cons p rest ih =>
    intro acc
    rw [pruneLoop_cons, if_pos (hall p (by simp))]
    exact ih (fun q hq => hall q (by simp [hq])) acc

theorem renderMergePrune_eq_extend_of_no_prune (m hh : TaskMap)
    (hall : ∀ p ∈ m, containsKey hh p.1 = true) :
    renderMergePrune m hh = indexMapExtend m hh := by
  unfold renderMergePrune
  refine pruneLoop_id hh (indexMapExtend m hh) ?_ (indexMapExtend m hh)
  intro p hp
  have hcke : containsKey (indexMapExtend m hh) p.1 = true :=
    (containsKey_iff_mem_keysOf _ p.1).mpr (List.mem_map_of_mem Prod.fst hp)
  rw [containsKey_indexMapExtend] at hcke
  cases hcm : containsKey m p.1
  · simpa [hcm] using hcke
  · rcases List.any_eq_true.mp hcm with ⟨q, hq, hqk⟩
    have hqp : q.1 = p.1 := by simpa using hqk
    exact hqp ▸ hall q hq

/-!
Claim theorems.
-/

/-- C2: after set_thread_destination d on a thread outside any task scope,
get_destination returns d; inside scope_task_destination dtask f,
get_destination returns dtask for the extent of f; after f completes the
thread-scoped destination is still d (the scope never modifies the context it
wraps); and a task-scoped value always takes precedence over the thread-scoped
one. -/
theorem c2_destination_scoping {α : Type} (d dtask : Destination)
    (ctx : DestCtx) (f : DestCtx → α) (h : ctx.taskDestination = none) :
    get_destination (set_thread_destination d ctx) = d
    ∧ (scope_task_destination dtask (fun c => (get_destination c, f c))
        (set_thread_destination d ctx)).1.1 = dtask
    ∧ (scope_task_destination dtask f (set_thread_destination d ctx)).2
        = set_thread_destination d ctx
    ∧ (∀ c : DestCtx, ∀ x : Destination,
        get_destination { c with taskDestination := some x } = x) := by
  refine ⟨?_, rfl, rfl, fun c x => rfl⟩
  simp [get_destination, set_thread_destination, h]

/-- Witness for C2 at the concrete instance of the spec's own scenario:
thread destination set to Pantsd (Background), task scope at Stderr
(Interactive). -/
theorem c2_destination_scoping_witness :
    get_destination (set_thread_destination Destination.Pantsd initialDestCtx)
        = Destination.Pantsd
    ∧ (scope_task_destination Destination.Stderr
        (fun c => (get_destination c, (fun _ => (0 : Nat)) c))
        (set_thread_destination Destination.Pantsd initialDestCtx)).1.1
        = Destination.Stderr
    ∧ (scope_task_destination Destination.Stderr (fun _ => (0 : Nat))
        (set_thread_destination Destination.Pantsd initialDestCtx)).2
        = set_thread_destination Destination.Pantsd initialDestCtx
    ∧ (∀ c : DestCtx, ∀ x : Destination,
        get_destination { c with taskDestination := some x } = x) :=
  c2_destination_scoping Destination.Pantsd Destination.Stderr initialDestCtx
    (fun _ => (0 : Nat)) rfl

/-- C3: for a render tick over display mapping m and poll result hh (both with
unique keys, hh capped at 8 entries), the post-tick display mapping binds
exactly the keys of hh, each to hh's duration value: keys of hh already in m
are overwritten, keys of hh not in m are inserted, and keys of m absent from
hh are removed on this tick. -/
theorem c3_render_merge_prune (m hh : TaskMap) (hm : NodupKeys m)
    (hhn : NodupKeys hh) (hcap : hh.length ≤ 8) :
    (∀ k : String, lookupKey (renderMergePrune m hh) k = lookupKey hh k)
    ∧ (∀ k : String,
        containsKey (renderMergePrune m hh) k = containsKey hh k) :=
  ⟨fun k => lookupKey_renderMergePrune m hh hm hhn k,
   fun k => containsKey_renderMergePrune m hh hm hhn k⟩

/-- Witness for C3 at the spec's example: mapping A at 1.0s and B waiting,
poll B at 2.0s and C waiting - A is pruned, B is overwritten, C inserted. -/
theorem c3_render_merge_prune_witness :
    lookupKey (renderMergePrune [("A", some 1000), ("B", none)]
        [("B", some 2000), ("C", none)]) "A" = none
    ∧ lookupKey (renderMergePrune [("A", some 1000), ("B", none)]
        [("B", some 2000), ("C", none)]) "B" = some (some 2000)
    ∧ lookupKey (renderMergePrune [("A", some 1000), ("B", none)]
        [("B", some 2000), ("C", none)]) "C" = some none
    ∧ containsKey (renderMergePrune [("A", some 1000), ("B", none)]
        [("B", some 2000), ("C", none)]) "A" = false := by
  have h := c3_render_merge_prune [("A", some 1000), ("B", none)]
    [("B", some 2000), ("C", none)] (by decide) (by decide) (by decide)
  refine ⟨(h.1 "A").trans (by decide), (h.1 "B").trans (by decide),
    (h.1 "C").trans (by decide), (h.2 "A").trans (by decide)⟩

/-- C4 counterexample: the claim that surviving tasks keep their relative
order across a tick fails on the code.  With display mapping A, B, C and a
poll returning only B and C, pruning A swap-removes it: the last entry C is
moved into A's slot, so C now precedes B even though both survive. -/
theorem c4_order_counterexample :
    ¬ survivorsKeepOrder [("A", none), ("B", none), ("C", none)]
        [("B", some 2000), ("C", none)] := by
  intro h
  have := h "B" "C" (by decide) (by decide) (by decide) (by decide) (by decide)
  exact absurd this (by decide)

/-- C4 amended: insertion order is display order and merging alone never
reorders - on a tick in which no task is pruned (every mapped task is still
returned by the poll), the surviving tasks keep their positions exactly and
new tasks are appended in poll order; pruning, however, backfills the removed
slot with the mapping's last entry and may reorder survivors. -/
theorem c4_insertion_order_amended (m hh : TaskMap) (hhn : NodupKeys hh)
    (hall : ∀ p ∈ m, containsKey hh p.1 = true) :
    keysOf (renderMergePrune m hh) =
      keysOf m ++ keysOf (hh.filter (fun p => !(containsKey m p.1))) := by
  rw [renderMergePrune_eq_extend_of_no_prune m hh hall]
  exact keysOf_indexMapExtend hh m hhn

/-- Witness for the amended C4: mapping with task A, poll returning A and a
new task B - A keeps position 0 and B is appended. -/
theorem c4_insertion_order_amended_witness :
    keysOf (renderMergePrune [("A", some 1000)]
        [("A", some 2000), ("B", none)]) =
      keysOf [("A", (some 1000 : Option Nat))] ++
        keysOf (([("A", some 2000), ("B", none)] : TaskMap).filter
          (fun p => !(containsKey [("A", (some 1000 : Option Nat))] p.1))) :=
  c4_insertion_order_amended [("A", some 1000)] [("A", some 2000), ("B", none)]
    (by decide) (by decide)

/-- C9: while a renderer session is active, a further session-start call
returns the already-active error and leaves the whole world untouched: the
display mapping, widgets, registered interceptor entry and spawned-task count
are unchanged, no new interceptor is registered and no task is spawned. -/
theorem c9_session_already_active (w : UIWorld) (cb : String → Bool)
    (h : w.ui.inst.isSome = true) :
    ConsoleUI.startUI w cb =
      (Except.error "A ConsoleUI cannot render multiple UIs concurrently.",
        w) := by
  cases hw : w.ui.inst with
  | none => simp [hw] at h
  | some i => simp [ConsoleUI.startUI, hw]

/-- Witness for C9 at a concrete active session. -/
theorem c9_session_already_active_witness :
    ConsoleUI.startUI
      { ui := { inst := some { tasks_to_display := [("A", none)],
                               bars := [SwimBar.mk 0 "x"],
                               logger_handle := 7,
                               multi_progress_task := 3 } },
        handlers := [(7, fun _ => true)], nextUuid := 8, spawned := 4 }
      (fun _ => false) =
      (Except.error "A ConsoleUI cannot render multiple UIs concurrently.",
        { ui := { inst := some { tasks_to_display := [("A", none)],
                                 bars := [SwimBar.mk 0 "x"],
                                 logger_handle := 7,
                                 multi_progress_task := 3 } },
          handlers := [(7, fun _ => true)], nextUuid := 8, spawned := 4 }) :=
  c9_session_already_active _ _ rfl

theorem logRecord_stderr_handlerCalls (pants_packages : List String)
    (s : LoggerState) (timeStr : String) (r : LogRecord)
    (hfilter : shouldLog s.show_rust_3rdparty_logs pants_packages r.modulePath
      = true) :
    (PantsLogger.logRecord pants_packages s Destination.Stderr timeStr
        r).handlerCalls =
      s.stderr_handlers.map (fun p => (p.1, p.2 (formatLogString timeStr
        s.show_log_domain (levelMarker s.use_color r.level) r.target
        r.message))) := by
  simp only [PantsLogger.logRecord, hfilter, Bool.not_true,
    Bool.false_eq_true, if_false]
  split
  · rfl
  · rfl

theorem logRecord_stderr_sinkCalls (pants_packages : List String)
    (s : LoggerState) (timeStr : String) (r : LogRecord)
    (hfilter : shouldLog s.show_rust_3rdparty_logs pants_packages r.modulePath
      = true) :
    (PantsLogger.logRecord pants_packages s Destination.Stderr timeStr
        r).stderrSinkCalls =
      if s.stderr_handlers.length == 0 ||
          (s.stderr_handlers.map (fun p => (p.1, p.2 (formatLogString timeStr
            s.show_log_domain (levelMarker s.use_color r.level) r.target
            r.message)))).any (fun c => !c.2) then 1
      else 0 := by
  simp only [PantsLogger.logRecord, hfilter, Bool.not_true,
    Bool.false_eq_true, if_false]
  split
  · rfl
  · rfl

/-- C1: for a record that resolves to the interactive (stderr) destination and
passes the non-engine filter, the formatted line is offered to every
registered interceptor in the registry, and the raw interactive sink is
invoked exactly once if and only if the registry is empty or at least one
interceptor returned failure - in particular at most once, never once per
failing interceptor, and not at all when at least one interceptor is
registered and all succeed. -/
theorem c1_interactive_interceptor_fallback (pants_packages : List String)
    (s : LoggerState) (timeStr : String) (r : LogRecord)
    (hfilter : shouldLog s.show_rust_3rdparty_logs pants_packages r.modulePath
      = true) :
    (PantsLogger.logRecord pants_packages s Destination.Stderr timeStr
        r).handlerCalls =
      s.stderr_handlers.map (fun p => (p.1, p.2 (formatLogString timeStr
        s.show_log_domain (levelMarker s.use_color r.level) r.target
        r.message)))
    ∧ ((PantsLogger.logRecord pants_packages s Destination.Stderr timeStr
        r).stderrSinkCalls = 1 ↔
      (s.stderr_handlers = [] ∨ ∃ p ∈ s.stderr_handlers,
        p.2 (formatLogString timeStr s.show_log_domain
          (levelMarker s.use_color r.level) r.target r.message) = false))
    ∧ (PantsLogger.logRecord pants_packages s Destination.Stderr timeStr
        r).stderrSinkCalls ≤ 1 := by
  refine ⟨logRecord_stderr_handlerCalls pants_packages s timeStr r hfilter,
    ?_, ?_⟩
  · rw [logRecord_stderr_sinkCalls pants_packages s timeStr r hfilter]
    by_cases hcond : (s.stderr_handlers.length == 0 ||
        (s.stderr_handlers.map (fun p => (p.1, p.2 (formatLogString timeStr
          s.show_log_domain (levelMarker s.use_color r.level) r.target
          r.message)))).any (fun c => !c.2)) = true
    · rw [if_pos hcond]
      refine ⟨fun _ => ?_, fun _ => rfl⟩
      rw [Bool.or_eq_true] at hcond
      rcases hcond with hlen | hany
      · exact Or.inl (List.length_eq_zero.mp (by simpa using hlen))
      · rcases List.any_eq_true.mp hany with ⟨c, hcmem, hcval⟩
        rcases List.mem_map.mp hcmem with ⟨p, hpmem, hpc⟩
        refine Or.inr ⟨p, hpmem, ?_⟩
        have : (!c.2) = true := hcval
        rw [← hpc] at this
        simpa using this
    · rw [if_neg hcond]
      constructor
      · intro h01
        exact absurd h01 (by simp)
      · intro hrhs
        exfalso
        apply hcond
        rw [Bool.or_eq_true]
        rcases hrhs with hnil | ⟨p, hpmem, hpf⟩
        · exact Or.inl (by simp [hnil])
        · refine Or.inr (List.any_eq_true.mpr ?_)
          refine ⟨(p.1, p.2 (formatLogString timeStr s.show_log_domain
            (levelMarker s.use_color r.level) r.target r.message)),
            List.mem_map_of_mem _ hpmem, ?_⟩
          simp [hpf]
  · rw [logRecord_stderr_sinkCalls pants_packages s timeStr r hfilter]
    split
    · exact Nat.le_refl 1
    · exact Nat.zero_le 1

/-- Witness for C1: a state with one failing and one succeeding interceptor -
every interceptor is offered the line and the raw sink is invoked exactly
once. -/
theorem c1_interactive_interceptor_fallback_witness :
    (PantsLogger.logRecord [] { sampleLoggerState with
        stderr_handlers := [(0, fun _ => false), (1, fun _ => true)] }
        Destination.Stderr "10:00:00.00"
        { level := Level.Info, target := "engine", modulePath := none,
          message := "hello" }).handlerCalls =
      ([(0, fun _ => false), (1, fun _ => true)] :
          List (Nat × (String → Bool))).map
        (fun p => (p.1, p.2 (formatLogString "10:00:00.00" false
          (levelMarker false Level.Info) "engine" "hello")))
    ∧ ((PantsLogger.logRecord [] { sampleLoggerState with
        stderr_handlers := [(0, fun _ => false), (1, fun _ => true)] }
        Destination.Stderr "10:00:00.00"
        { level := Level.Info, target := "engine", modulePath := none,
          message := "hello" }).stderrSinkCalls = 1 ↔
      (([(0, fun _ => false), (1, fun _ => true)] :
          List (Nat × (String → Bool))) = [] ∨
        ∃ p ∈ ([(0, fun _ => false), (1, fun _ => true)] :
          List (Nat × (String → Bool))),
          p.2 (formatLogString "10:00:00.00" false
            (levelMarker false Level.Info) "engine" "hello") = false))
    ∧ (PantsLogger.logRecord [] { sampleLoggerState with
        stderr_handlers := [(0, fun _ => false), (1, fun _ => true)] }
        Destination.Stderr "10:00:00.00"
        { level := Level.Info, target := "engine", modulePath := none,
          message := "hello" }).stderrSinkCalls ≤ 1 :=
  c1_interactive_interceptor_fallback [] { sampleLoggerState with
      stderr_handlers := [(0, fun _ => false), (1, fun _ => true)] }
    "10:00:00.00"
    { level := Level.Info, target := "engine", modulePath := none,
      message := "hello" } rfl

/-- C5 counterexample: the claim that every failing set_pantsd_logger call
leaves the background sink empty is false.  With a previously configured
background sink, a call with the unrecognized level 99 returns an error but
leaves the sink in its previous configuration, which is not the empty sink. -/
theorem c5_failure_state_counterexample :
    (set_pantsd_logger { sampleLoggerState with
        pantsd_log := MaybeWriteLogger.new LevelFilter.Info false [] }
        99 true).1.isOk = false
    ∧ (set_pantsd_logger { sampleLoggerState with
        pantsd_log := MaybeWriteLogger.new LevelFilter.Info false [] }
        99 true).2.pantsd_log = MaybeWriteLogger.new LevelFilter.Info false []
    ∧ MaybeWriteLogger.new LevelFilter.Info false [] ≠
        MaybeWriteLogger.empty :=
  ⟨rfl, rfl, by decide⟩

/-- C5 amended: a failing set_pantsd_logger call returns an error and leaves
the background sink unpartially configured, but in two distinct ways: an
unrecognized-level failure happens before the sink is touched and leaves the
whole logger state (including the previously configured sink) unchanged, while
an open failure happens after the old sink was dropped and leaves the
background sink empty. -/
theorem c5_failure_state_amended (s : LoggerState) (python_level : Nat)
    (openSucceeds : Bool)
    (hfail : (set_pantsd_logger s python_level openSucceeds).1.isOk = false) :
    (tryIntoPythonLevel python_level = none ∧
      (set_pantsd_logger s python_level openSucceeds).2 = s)
    ∨ (tryIntoPythonLevel python_level ≠ none ∧ openSucceeds = false ∧
        (set_pantsd_logger s python_level openSucceeds).2.pantsd_log =
          MaybeWriteLogger.empty) := by
  cases htry : tryIntoPythonLevel python_level with
  | none =>
    refine Or.inl ⟨rfl, ?_⟩
    simp [set_pantsd_logger, htry]
  | some lvl =>
    cases openSucceeds with
    | false =>
      refine Or.inr ⟨by simp [htry], rfl, ?_⟩
      simp [set_pantsd_logger, htry]
    | true =>
      exfalso
      simp [set_pantsd_logger, htry] at hfail
      exact absurd hfail (by decide)

/-- Witness for the amended C5: an open failure at the recognized level 20
leaves the background sink empty. -/
theorem c5_failure_state_amended_witness :
    (tryIntoPythonLevel 20 = none ∧
      (set_pantsd_logger sampleLoggerState 20 false).2 = sampleLoggerState)
    ∨ (tryIntoPythonLevel 20 ≠ none ∧ false = false ∧
        (set_pantsd_logger sampleLoggerState 20 false).2.pantsd_log =
          MaybeWriteLogger.empty) :=
  c5_failure_state_amended sampleLoggerState 20 false rfl

/-- C6: evaluation of the embedded swimlane-update code at the failing input.
On a second tick with a single persisting task (one widget showing the task's
old label, one fresh label for it), the update loop creates a brand-new second
widget instead of updating the existing widget in place - the source condition
on the widget count is satisfied for every label index - and the subsequent
cleanup loop then panics removing index 1 or beyond from the shrunken vector;
likewise a very first tick with one label panics.  The claimed in-place update
never happens. -/
theorem c6_slot_assignment_eval :
    slotAssignLoop ["0.20s A"] 0 [SwimBar.mk 0 "0.10s A"] 1 =
      some ([SwimBar.mk 0 "0.10s A", SwimBar.mk 1 "0.20s A"], 2)
    ∧ renderBars ["0.20s A"] [SwimBar.mk 0 "0.10s A"] 1 = none
    ∧ renderBars ["(Waiting) A"] [] 0 = none := by
  refine ⟨by decide, by decide, by decide⟩

/-- C7: a sink built over an output target writes a record exactly when the
record's severity clears the sink's global threshold or the record's domain
has an override that the severity clears (so an override can admit a record
the global threshold would reject, and a domain with no override is gated by
the global threshold alone), while the empty sink writes nothing. -/
theorem c7_sink_threshold_overrides (lf : LevelFilter) (sd : Bool)
    (filters : List (String × LevelFilter)) (lv : Level) (t : String) :
    ((MaybeWriteLogger.new lf sd filters).log lv t = true ↔
      (lv.toNat ≤ lf.toNat ∨ ∃ ov : LevelFilter,
        lookupKey filters t = some ov ∧ lv.toNat ≤ ov.toNat))
    ∧ MaybeWriteLogger.empty.log lv t = false := by
  constructor
  · cases hlk : lookupKey filters t with
    | none =>
      by_cases hle : lv.toNat ≤ lf.toNat
      · simp [MaybeWriteLogger.log, MaybeWriteLogger.enabled,
          MaybeWriteLogger.new, hlk, hle]
      · simp [MaybeWriteLogger.log, MaybeWriteLogger.enabled,
          MaybeWriteLogger.new, hlk, hle]
    | some ov =>
      by_cases hle : lv.toNat ≤ lf.toNat
      · simp [MaybeWriteLogger.log, MaybeWriteLogger.enabled,
          MaybeWriteLogger.new, hlk, hle]
      · by_cases hov : lv.toNat ≤ ov.toNat
        · simp [MaybeWriteLogger.log, MaybeWriteLogger.enabled,
            MaybeWriteLogger.new, hlk, hle, hov]
        · simp [MaybeWriteLogger.log, MaybeWriteLogger.enabled,
            MaybeWriteLogger.new, hlk, hle, hov]
  · have h0 : ¬ (lv.toNat ≤ LevelFilter.Off.toNat) := by
      cases lv <;> simp [Level.toNat, LevelFilter.toNat]
    simp [MaybeWriteLogger.log, MaybeWriteLogger.enabled,
      MaybeWriteLogger.empty, lookupKey, h0]

/-- C8: every successful sink reconfiguration - interactive or background -
leaves the facility's global severity ceiling equal to the more verbose of the
prior ceiling and the requested level; in particular the ceiling never
decreases. -/
theorem c8_global_ceiling_monotone (s : LoggerState) (n : Nat)
    (lvl : PythonLogLevel) (h : tryIntoPythonLevel n = some lvl) :
    (set_stderr_logger s n).2.maxLevel.toNat =
      Nat.max s.maxLevel.toNat lvl.toLevelFilter.toNat
    ∧ (set_pantsd_logger s n true).2.maxLevel.toNat =
      Nat.max s.maxLevel.toNat lvl.toLevelFilter.toNat
    ∧ s.maxLevel.toNat ≤ (set_stderr_logger s n).2.maxLevel.toNat
    ∧ s.maxLevel.toNat ≤ (set_pantsd_logger s n true).2.maxLevel.toNat := by
  have hmax : ∀ cur nl : LevelFilter,
      (maybe_increase_global_verbosity cur nl).toNat =
        Nat.max cur.toNat nl.toNat := by
    intro cur nl
    unfold maybe_increase_global_verbosity
    by_cases hlt : cur.toNat < nl.toNat
    · rw [if_pos hlt]
      exact (Nat.max_eq_right (Nat.le_of_lt hlt)).symm
    · rw [if_neg hlt]
      exact (Nat.max_eq_left (Nat.le_of_not_lt hlt)).symm
  have h1 : (set_stderr_logger s n).2.maxLevel =
      maybe_increase_global_verbosity s.maxLevel lvl.toLevelFilter := by
    simp [set_stderr_logger, h]
  have h2 : (set_pantsd_logger s n true).2.maxLevel =
      maybe_increase_global_verbosity s.maxLevel lvl.toLevelFilter := by
    simp [set_pantsd_logger, h]
  refine ⟨by rw [h1, hmax], by rw [h2, hmax], ?_, ?_⟩
  · rw [h1, hmax]
    exact Nat.le_max_left _ _
  · rw [h2, hmax]
    exact Nat.le_max_left _ _

/-- Witness for C8: reconfiguring at Trace (numeric level 5) from a ceiling of
Info raises the ceiling to Trace. -/
theorem c8_global_ceiling_monotone_witness :
    (set_stderr_logger sampleLoggerState 5).2.maxLevel.toNat =
      Nat.max sampleLoggerState.maxLevel.toNat
        PythonLogLevel.Trace.toLevelFilter.toNat
    ∧ (set_pantsd_logger sampleLoggerState 5 true).2.maxLevel.toNat =
      Nat.max sampleLoggerState.maxLevel.toNat
        PythonLogLevel.Trace.toLevelFilter.toNat
    ∧ sampleLoggerState.maxLevel.toNat ≤
        (set_stderr_logger sampleLoggerState 5).2.maxLevel.toNat
    ∧ sampleLoggerState.maxLevel.toNat ≤
        (set_pantsd_logger sampleLoggerState 5 true).2.maxLevel.toNat :=
  c8_global_ceiling_monotone sampleLoggerState 5 PythonLogLevel.Trace rfl

/-- C10: with the show-non-engine-logs flag off, the allow-list filter lets a
record through exactly when its module path's top-level segment is a
recognized engine package name, and a record with no module path at all is
never suppressed - it always proceeds to destination resolution and sink
routing (its background-sink call happens, or its interactive line is
formatted and offered). -/
theorem c10_nonengine_filter (pants_packages : List String) (mp : String)
    (s : LoggerState) (timeStr : String) (r : LogRecord)
    (hmp : r.modulePath = none) (h3p : s.show_rust_3rdparty_logs = false) :
    shouldLog false pants_packages none = true
    ∧ (shouldLog false pants_packages (some mp) = true ↔
        (mp.splitOn "::").headD "" ∈ pants_packages)
    ∧ (PantsLogger.logRecord pants_packages s Destination.Pantsd timeStr
        r).pantsdSinkCalls = 1
    ∧ ((PantsLogger.logRecord pants_packages s Destination.Stderr timeStr
        r).offeredLine).isSome = true := by
  have hsl : shouldLog s.show_rust_3rdparty_logs pants_packages r.modulePath
      = true := by
    rw [h3p, hmp]
    rfl
  refine ⟨rfl, ?_, ?_, ?_⟩
  · constructor
    · intro h
      rcases List.any_eq_true.mp h with ⟨p, hp, hpe⟩
      have he : (mp.splitOn "::").headD "" = p := by simpa using hpe
      rw [he]
      exact hp
    · intro hmem
      exact List.any_eq_true.mpr ⟨_, hmem, by simp⟩
  · simp [PantsLogger.logRecord, hsl]
  · simp only [PantsLogger.logRecord, hsl, Bool.not_true, Bool.false_eq_true,
      if_false]
    split
    · rfl
    · rfl

/-- Witness for C10: a record with no module path and the flag off is routed
to the background sink, and to the interceptor offer on the interactive
path. -/
theorem c10_nonengine_filter_witness :
    shouldLog false ["engine"] none = true
    ∧ (shouldLog false ["engine"] (some "logging::logger") = true ↔
        ("logging::logger".splitOn "::").headD "" ∈ ["engine"])
    ∧ (PantsLogger.logRecord ["engine"] sampleLoggerState Destination.Pantsd
        "10:00:00.00"
        { level := Level.Info, target := "t", modulePath := none,
          message := "m" }).pantsdSinkCalls = 1
    ∧ ((PantsLogger.logRecord ["engine"] sampleLoggerState Destination.Stderr
        "10:00:00.00"
        { level := Level.Info, target := "t", modulePath := none,
          message := "m" }).offeredLine).isSome = true :=
  c10_nonengine_filter ["engine"] "logging::logger" sampleLoggerState
    "10:00:00.00"
    { level := Level.Info, target := "t", modulePath := none,
      message := "m" } rfl rfl
